import Mathlib

/-!
Shallow embedding of the `near-linkdrop` contract (`src/lib.rs`).

The contract is a NEAR smart contract holding four persistent maps; its
public methods either mutate that state synchronously and return a promise
(a batch of host-side actions), or abort with a panic message.  We model:

* `u128` balances as `Nat` (overflow points are noted where they matter);
* the NEAR `Map` collections as association lists with `mapGet`,
  `mapInsert` (replace-or-append) and `mapRemove` (remove first match);
* a panic as `Except.error msg` carrying the exact panic message of the
  source; the NEAR runtime rolls the whole call back on panic, which the
  `...State` wrappers below make explicit;
* a returned `Promise` as a `List HostAction` of the host actions the source
  batches onto it, in source order.
-/

abbrev PublicKey := List Nat

abbrev AccountId := String

abbrev RedInfoKey := List Nat

/-- 红包信息结构: `RedInfo { mode: u8, count: u128 }`. -/
structure RedInfo where
  mode : Nat
  count : Nat
deriving DecidableEq, Repr

/-- The persistent state of the `LinkDrop` contract: its four maps. -/
structure LinkDrop where
  accounts : List (PublicKey × Nat)
  red_info : List (RedInfoKey × RedInfo)
  sender_red_info : List (PublicKey × List RedInfoKey)
  red_receive_record : List (RedInfoKey × List PublicKey)
deriving DecidableEq, Repr

/-- `LinkDrop::default()`: every map empty. -/
def LinkDrop.default : LinkDrop := ⟨[], [], [], []⟩

/-- The relevant parts of the NEAR host environment for a single call. -/
structure Env where
  predecessor_account_id : AccountId
  current_account_id : AccountId
  signer_account_pk : PublicKey
  attached_deposit : Nat
deriving DecidableEq, Repr

/-- `Map::get`: value at the first matching key, if any. -/
def mapGet {α β : Type} [DecidableEq α] (m : List (α × β)) (k : α) : Option β :=
  match m with
  | [] => none
  | (k', v) :: rest => if k' = k then some v else mapGet rest k

/-- `Map::insert`: replace the value at the key, or append a fresh entry. -/
def mapInsert {α β : Type} [DecidableEq α] (m : List (α × β)) (k : α) (v : β) :
    List (α × β) :=
  match m with
  | [] => [(k, v)]
  | (k', v') :: rest =>
      if k' = k then (k, v) :: rest else (k', v') :: mapInsert rest k v

/-- `Map::remove`: drop the first entry with the key. -/
def mapRemove {α β : Type} [DecidableEq α] (m : List (α × β)) (k : α) :
    List (α × β) :=
  match m with
  | [] => []
  | (k', v') :: rest =>
      if k' = k then rest else (k', v') :: mapRemove rest k

/-- Host actions batched on a returned `Promise`, in source order. -/
inductive HostAction where
  | transfer (receiver : AccountId) (amount : Nat)
  | addAccessKey (receiver : AccountId) (pk : PublicKey) (allowance : Nat)
      (receiverId : AccountId) (methodNames : String)
  | deleteKey (receiver : AccountId) (pk : PublicKey)
  | createAccount (accountId : AccountId)
  | addFullAccessKey (accountId : AccountId) (pk : PublicKey)
  | callOnAccountCreated (predecessor : AccountId) (amount : Nat)
  | callOnAccountCreatedAndClaimed (amount : Nat)
deriving DecidableEq, Repr

/-- `ACCESS_KEY_ALLOWANCE: u128 = 1_000_000_000_000_000_000_000`. -/
def ACCESS_KEY_ALLOWANCE : Nat := 1000000000000000000000

/-- `env::is_valid_account_id` (host-provided; NEAR account-id rule):
length 2..64, lowercase alphanumeric parts separated by single
`.`/`_`/`-` separators. -/
def isAlnumLower (c : Char) : Bool :=
  (97 ≤ c.toNat && c.toNat ≤ 122) || (48 ≤ c.toNat && c.toNat ≤ 57)

def isSeparator (c : Char) : Bool :=
  c = '.' || c = '_' || c = '-'

def validChars : List Char → Bool
  | [] => true
  | [c] => isAlnumLower c
  | c :: c' :: rest =>
      (isAlnumLower c || (isSeparator c && isAlnumLower c')) &&
        validChars (c' :: rest)

def is_valid_account_id (s : AccountId) : Bool :=
  2 ≤ s.length && s.length ≤ 64 &&
    (match s.toList with
     | [] => false
     | c :: rest => isAlnumLower c && validChars (c :: rest))

/-- `send(public_key)`: requires a deposit strictly above
`ACCESS_KEY_ALLOWANCE`, then adds `deposit - ACCESS_KEY_ALLOWANCE` to the
escrow balance of the key (0 if absent) and registers the key as a scoped
access key. -/
def send (env : Env) (s : LinkDrop) (public_key : PublicKey) :
    Except String (LinkDrop × List HostAction) :=
  if env.attached_deposit > ACCESS_KEY_ALLOWANCE then
    let value := (mapGet s.accounts public_key).getD 0
    let s' := { s with
      accounts := mapInsert s.accounts public_key
        (value + env.attached_deposit - ACCESS_KEY_ALLOWANCE) }
    Except.ok (s', [HostAction.addAccessKey env.current_account_id public_key
      ACCESS_KEY_ALLOWANCE env.current_account_id
      "claim,create_account_and_claim"])
  else
    Except.error "Attached deposit must be greater than ACCESS_KEY_ALLOWANCE"

/-- The state after a `send` call under NEAR rollback semantics: a panic
leaves the state as it was. -/
def sendState (env : Env) (s : LinkDrop) (public_key : PublicKey) : LinkDrop :=
  match send env s public_key with
  | Except.ok (s', _) => s'
  | Except.error _ => s

/-- `claim(account_id)`: only callable by the contract itself (an access-key
call), requires a valid destination account, removes the escrow entry of the
signing key (panicking if absent), deletes the key and transfers the whole
balance. -/
def claim (env : Env) (s : LinkDrop) (account_id : AccountId) :
    Except String (LinkDrop × List HostAction) :=
  if env.predecessor_account_id = env.current_account_id then
    if is_valid_account_id account_id then
      match mapGet s.accounts env.signer_account_pk with
      | some amount =>
          let s' := { s with
            accounts := mapRemove s.accounts env.signer_account_pk }
          Except.ok (s',
            [HostAction.deleteKey env.current_account_id env.signer_account_pk,
             HostAction.transfer account_id amount])
      | none => Except.error "Unexpected public key"
    else Except.error "Invalid account id"
  else Except.error "Claim only can come from this account"

/-- State after a `claim` call under NEAR rollback semantics. -/
def claimState (env : Env) (s : LinkDrop) (account_id : AccountId) : LinkDrop :=
  match claim env s account_id with
  | Except.ok (s', _) => s'
  | Except.error _ => s

/-- `create_account_and_claim(new_account_id, new_public_key)`: same guards
as `claim`, removes the escrow balance optimistically, then issues account
creation + key installation + transfer with a callback carrying the removed
amount. -/
def create_account_and_claim (env : Env) (s : LinkDrop)
    (new_account_id : AccountId) (new_public_key : PublicKey) :
    Except String (LinkDrop × List HostAction) :=
  if env.predecessor_account_id = env.current_account_id then
    if is_valid_account_id new_account_id then
      match mapGet s.accounts env.signer_account_pk with
      | some amount =>
          let s' := { s with
            accounts := mapRemove s.accounts env.signer_account_pk }
          Except.ok (s',
            [HostAction.createAccount new_account_id,
             HostAction.addFullAccessKey new_account_id new_public_key,
             HostAction.transfer new_account_id amount,
             HostAction.callOnAccountCreatedAndClaimed amount])
      | none => Except.error "Unexpected public key"
    else Except.error "Invalid account id"
  else Except.error "Create account and claim only can come from this account"

/-- State after a `create_account_and_claim` call under rollback
semantics. -/
def create_account_and_claimState (env : Env) (s : LinkDrop)
    (new_account_id : AccountId) (new_public_key : PublicKey) : LinkDrop :=
  match create_account_and_claim env s new_account_id new_public_key with
  | Except.ok (s', _) => s'
  | Except.error _ => s

/-- `create_account(new_account_id, new_public_key)`: plain sub-account
creation funded by the attached deposit; mutates no contract state and
schedules `on_account_created` with the predecessor and the amount. -/
def create_account (env : Env) (s : LinkDrop) (new_account_id : AccountId)
    (new_public_key : PublicKey) :
    Except String (LinkDrop × List HostAction) :=
  if is_valid_account_id new_account_id then
    let amount := env.attached_deposit
    Except.ok (s,
      [HostAction.createAccount new_account_id,
       HostAction.addFullAccessKey new_account_id new_public_key,
       HostAction.transfer new_account_id amount,
       HostAction.callOnAccountCreated env.predecessor_account_id amount])
  else Except.error "Invalid account id"

/-- `on_account_created(predecessor_account_id, amount)`: callback after
`create_account`; `result` is the single promise outcome reported by the
host (`is_promise_success`).  On failure it refunds `amount` to the
recorded predecessor; it returns whether creation succeeded. -/
def on_account_created (env : Env) (s : LinkDrop)
    (predecessor_account_id : AccountId) (amount : Nat) (result : Bool) :
    Except String (LinkDrop × List HostAction × Bool) :=
  if env.predecessor_account_id = env.current_account_id then
    if result then Except.ok (s, [], true)
    else Except.ok (s, [HostAction.transfer predecessor_account_id amount], false)
  else Except.error "Callback can only be called from the contract"

/-- `on_account_created_and_claimed(amount)`: callback after
`create_account_and_claim`.  On success it deletes the consumed key; on
failure it puts `amount` back under the signing key. -/
def on_account_created_and_claimed (env : Env) (s : LinkDrop) (amount : Nat)
    (result : Bool) : Except String (LinkDrop × List HostAction × Bool) :=
  if env.predecessor_account_id = env.current_account_id then
    if result then
      Except.ok (s,
        [HostAction.deleteKey env.current_account_id env.signer_account_pk],
        true)
    else
      Except.ok ({ s with
        accounts := mapInsert s.accounts env.signer_account_pk amount },
        [], false)
  else Except.error "Callback can only be called from the contract"

/-- State after an `on_account_created_and_claimed` callback under rollback
semantics. -/
def on_account_created_and_claimedState (env : Env) (s : LinkDrop)
    (amount : Nat) (result : Bool) : LinkDrop :=
  match on_account_created_and_claimed env s amount result with
  | Except.ok (s', _, _) => s'
  | Except.error _ => s

/-- `send_redbag(public_key, count, mode)`: guards `attached_deposit >
count` (the panic message names `ACCESS_KEY_ALLOWANCE` instead), stores the
envelope under the constant key `RedInfoKey::new()` (the empty byte
vector), appends that key to the sender's index and registers the key. -/
def send_redbag (env : Env) (s : LinkDrop) (public_key : PublicKey)
    (count : Nat) (mode : Nat) : Except String (LinkDrop × List HostAction) :=
  if env.attached_deposit > count then
    let red_info : RedInfo := ⟨mode, count⟩
    let red_key : RedInfoKey := []
    let sender_red_info_vec := (mapGet s.sender_red_info public_key).getD []
    let s' := { s with
      red_info := mapInsert s.red_info red_key red_info,
      sender_red_info := mapInsert s.sender_red_info public_key
        (sender_red_info_vec ++ [red_key]) }
    Except.ok (s', [HostAction.addAccessKey env.current_account_id public_key
      ACCESS_KEY_ALLOWANCE env.current_account_id ""])
  else
    Except.error "Attached deposit must be greater than ACCESS_KEY_ALLOWANCE"

/-- `show_claim_info(public_key)`: `sender_red_info.get(&pk).unwrap()`; the
`unwrap` of an absent key is a trap, modelled as `none`. -/
def show_claim_info (s : LinkDrop) (public_key : PublicKey) :
    Option (List RedInfoKey) :=
  mapGet s.sender_red_info public_key

/-- `show_redbag_info(red_info_key)`: `red_receive_record.get(&rik).unwrap()`
(a trap when absent, modelled as `none`), then an element-by-element copy of
the stored record into a fresh vector. -/
def show_redbag_info (s : LinkDrop) (red_info_key : RedInfoKey) :
    Option (List PublicKey) :=
  match mapGet s.red_receive_record red_info_key with
  | some records => some (records.foldl (fun vec item => vec ++ [item]) [])
  | none => none

/-- Modelled from the spec: the Random Allocator `allocate(remaining,
entropy)` is absent from `src/` (the red-envelope claim paths are
unimplemented); §4.2 of the spec describes it: partition `remaining` into
255 equal-width blocks (`remaining / 255`), fold the entropy bytes into a
single byte via wraparound addition, clamp the index to `[1, 253]`, and
multiply block width by the clamped index with `u128` wrapping
arithmetic. -/
def allocate (remaining : Nat) (entropy : List Nat) : Nat :=
  let blocks := remaining / 255
  let folded := entropy.foldl (fun acc b => (acc + b) % 256) 0
  let idx := max 1 (min 253 folded)
  blocks * idx % 2 ^ 128

/-- One externally-triggerable transition of the contract state: any public
method that runs to completion (`Except.ok`), from any host environment and
any arguments.  `create_account` and `on_account_created` never mutate the
state but are included for completeness. -/
inductive Step : LinkDrop → LinkDrop → Prop where
  | send (env : Env) (s s' : LinkDrop) (pk : PublicKey)
      (acts : List HostAction) (h : send env s pk = Except.ok (s', acts)) :
      Step s s'
  | claim (env : Env) (s s' : LinkDrop) (a : AccountId)
      (acts : List HostAction) (h : claim env s a = Except.ok (s', acts)) :
      Step s s'
  | create_account_and_claim (env : Env) (s s' : LinkDrop) (a : AccountId)
      (pk : PublicKey) (acts : List HostAction)
      (h : create_account_and_claim env s a pk = Except.ok (s', acts)) :
      Step s s'
  | create_account (env : Env) (s s' : LinkDrop) (a : AccountId)
      (pk : PublicKey) (acts : List HostAction)
      (h : create_account env s a pk = Except.ok (s', acts)) : Step s s'
  | on_account_created (env : Env) (s s' : LinkDrop) (p : AccountId)
      (amount : Nat) (r : Bool) (acts : List HostAction) (b : Bool)
      (h : on_account_created env s p amount r = Except.ok (s', acts, b)) :
      Step s s'
  | on_account_created_and_claimed (env : Env) (s s' : LinkDrop)
      (amount : Nat) (r : Bool) (acts : List HostAction) (b : Bool)
      (h : on_account_created_and_claimed env s amount r
        = Except.ok (s', acts, b)) : Step s s'
  | send_redbag (env : Env) (s s' : LinkDrop) (pk : PublicKey)
      (count : Nat) (mode : Nat) (acts : List HostAction)
      (h : send_redbag env s pk count mode = Except.ok (s', acts)) :
      Step s s'

/-- States reachable from the deployed (default) contract state by public
method calls. -/
def Reachable (s : LinkDrop) : Prop :=
  Relation.ReflTransGen Step LinkDrop.default s

lemma mapGet_mapInsert_self {α β : Type} [DecidableEq α]
    (m : List (α × β)) (k : α) (v : β) :
    mapGet (mapInsert m k v) k = some v := by
  induction m with
  | nil => simp [mapInsert, mapGet]
  | cons p rest ih =>
      obtain ⟨k', v'⟩ := p
      by_cases h : k' = k
      · simp [mapInsert, mapGet, h]
      · simp [mapInsert, mapGet, h, ih]

lemma foldl_push_eq_append {α : Type} (l acc : List α) :
    List.foldl (fun vec item => vec ++ [item]) acc l = acc ++ l := by
  induction l generalizing acc with
  | nil => simp
  | cons x xs ih => simp [List.foldl, ih]

/-- A host environment used to instantiate universally quantified theorems
at concrete inputs. -/
def envSelf (deposit : Nat) : Env := ⟨"linkdrop", "linkdrop", [0, 1, 2], deposit⟩

lemma send_ok (env : Env) (s : LinkDrop) (pk : PublicKey)
    (h : ACCESS_KEY_ALLOWANCE < env.attached_deposit) :
    send env s pk = Except.ok
      ({ s with
          accounts := mapInsert s.accounts pk
            ((mapGet s.accounts pk).getD 0
              + env.attached_deposit - ACCESS_KEY_ALLOWANCE) },
       [HostAction.addAccessKey env.current_account_id pk
         ACCESS_KEY_ALLOWANCE env.current_account_id
         "claim,create_account_and_claim"]) := by
  unfold send
  rw [if_pos h]

lemma sendState_ok (env : Env) (s : LinkDrop) (pk : PublicKey)
    (h : ACCESS_KEY_ALLOWANCE < env.attached_deposit) :
    sendState env s pk = { s with
      accounts := mapInsert s.accounts pk
        ((mapGet s.accounts pk).getD 0
          + env.attached_deposit - ACCESS_KEY_ALLOWANCE) } := by
  unfold sendState
  rw [send_ok env s pk h]

/-- C5: a `send` with deposit strictly above `ACCESS_KEY_ALLOWANCE` sets the
escrow balance of the key to its prior balance (0 if absent) plus
`deposit - ACCESS_KEY_ALLOWANCE`; two successive sends of `d1` and `d2` to a
fresh key leave exactly `d1 + d2 - 2 * ACCESS_KEY_ALLOWANCE`; a deposit not
strictly above the fee aborts. -/
theorem send_balance_accumulates :
    ∀ (env : Env) (s : LinkDrop) (pk : PublicKey),
      (ACCESS_KEY_ALLOWANCE < env.attached_deposit →
        mapGet (sendState env s pk).accounts pk
          = some ((mapGet s.accounts pk).getD 0
              + env.attached_deposit - ACCESS_KEY_ALLOWANCE)) ∧
      (env.attached_deposit ≤ ACCESS_KEY_ALLOWANCE →
        send env s pk
          = Except.error
              "Attached deposit must be greater than ACCESS_KEY_ALLOWANCE") ∧
      (∀ (env2 : Env), mapGet s.accounts pk = none →
        ACCESS_KEY_ALLOWANCE < env.attached_deposit →
        ACCESS_KEY_ALLOWANCE < env2.attached_deposit →
        mapGet (sendState env2 (sendState env s pk) pk).accounts pk
          = some (env.attached_deposit + env2.attached_deposit
              - 2 * ACCESS_KEY_ALLOWANCE)) := by
  intro env s pk
  refine ⟨?_, ?_, ?_⟩
  · intro h
    rw [sendState_ok env s pk h]
    exact mapGet_mapInsert_self _ _ _
  · intro h
    unfold send
    rw [if_neg (by omega)]
  · intro env2 hnone h1 h2
    rw [sendState_ok env s pk h1, sendState_ok env2 _ pk h2,
      mapGet_mapInsert_self, mapGet_mapInsert_self, hnone,
      Option.getD_none, Option.getD_some, Option.some_inj]
    omega

/-- C5 witness: concrete double deposit to a fresh key. -/
theorem send_balance_accumulates_witness :
    mapGet (sendState (envSelf (ACCESS_KEY_ALLOWANCE + 7))
        (sendState (envSelf (ACCESS_KEY_ALLOWANCE + 5)) LinkDrop.default [9])
        [9]).accounts [9]
      = some ((ACCESS_KEY_ALLOWANCE + 5) + (ACCESS_KEY_ALLOWANCE + 7)
          - 2 * ACCESS_KEY_ALLOWANCE) :=
  (send_balance_accumulates (envSelf (ACCESS_KEY_ALLOWANCE + 5))
      LinkDrop.default [9]).2.2 (envSelf (ACCESS_KEY_ALLOWANCE + 7))
    rfl (by norm_num [envSelf]) (by norm_num [envSelf])

/-- C2 (code bug): the guard of `send_redbag` compares the attached deposit
with `count`, not with `ACCESS_KEY_ALLOWANCE` as its own panic message (and
the spec) state: a deposit strictly above the fee still aborts when it does
not exceed `count`, and a deposit far below the fee passes the guard when it
exceeds `count`. -/
theorem send_redbag_guard_uses_count :
    (ACCESS_KEY_ALLOWANCE < ACCESS_KEY_ALLOWANCE + 1 ∧
      send_redbag (envSelf (ACCESS_KEY_ALLOWANCE + 1)) LinkDrop.default [7]
          (ACCESS_KEY_ALLOWANCE + 1) 1
        = Except.error
            "Attached deposit must be greater than ACCESS_KEY_ALLOWANCE") ∧
    (¬ ACCESS_KEY_ALLOWANCE < 100 ∧
      send_redbag (envSelf 100) LinkDrop.default [7] 10 1
        = Except.ok
            (⟨[], [([], ⟨1, 10⟩)], [([7], [[]])], []⟩,
             [HostAction.addAccessKey "linkdrop" [7] ACCESS_KEY_ALLOWANCE
               "linkdrop" ""])) := by
  constructor
  · exact ⟨by norm_num, by norm_num [send_redbag, envSelf]⟩
  · constructor
    · decide
    · rfl

/-- A concrete state used to instantiate the query theorems: one issuer
index entry under key `[1]` and one claim record under the empty key. -/
def queryState : LinkDrop := ⟨[], [], [([1], [[]])], [([], [[2]])]⟩

/-- C10: `show_claim_info` and `show_redbag_info` trap (modelled as `none`)
on keys absent from `sender_red_info` respectively `red_receive_record`,
and return exactly the stored sequence on present keys. -/
theorem show_queries_trap_on_absent :
    ∀ (s : LinkDrop) (pk : PublicKey) (k : RedInfoKey),
      (mapGet s.sender_red_info pk = none → show_claim_info s pk = none) ∧
      (∀ v, mapGet s.sender_red_info pk = some v →
        show_claim_info s pk = some v) ∧
      (mapGet s.red_receive_record k = none → show_redbag_info s k = none) ∧
      (∀ v, mapGet s.red_receive_record k = some v →
        show_redbag_info s k = some v) := by
  intro s pk k
  refine ⟨?_, ?_, ?_, ?_⟩
  · intro h
    unfold show_claim_info
    exact h
  · intro v h
    unfold show_claim_info
    exact h
  · intro h
    unfold show_redbag_info
    rw [h]
  · intro v h
    unfold show_redbag_info
    rw [h]
    show some (List.foldl (fun vec item => vec ++ [item]) [] v) = some v
    rw [foldl_push_eq_append, List.nil_append]

/-- C10 witness: both queries on `queryState`, at an absent and at a
present key each. -/
theorem show_queries_trap_on_absent_witness :
    show_claim_info queryState [9] = none ∧
    show_claim_info queryState [1] = some [[]] ∧
    show_redbag_info queryState [3] = none ∧
    show_redbag_info queryState [] = some [[2]] :=
  ⟨(show_queries_trap_on_absent queryState [9] [3]).1 rfl,
   (show_queries_trap_on_absent queryState [1] [3]).2.1 [[]] rfl,
   (show_queries_trap_on_absent queryState [1] [3]).2.2.1 rfl,
   (show_queries_trap_on_absent queryState [1] []).2.2.2 [[2]] rfl⟩

/-- C8: both settlement callbacks abort (with no refund, restoration or any
state change) whenever the predecessor is not the contract itself; their
compensation logic is unreachable from outside the host contract. -/
theorem callbacks_require_self_predecessor :
    ∀ (env : Env) (s : LinkDrop) (p : AccountId) (amt1 amt2 : Nat)
      (r1 r2 : Bool),
      env.predecessor_account_id ≠ env.current_account_id →
      on_account_created env s p amt1 r1
        = Except.error "Callback can only be called from the contract" ∧
      on_account_created_and_claimed env s amt2 r2
        = Except.error "Callback can only be called from the contract" ∧
      on_account_created_and_claimedState env s amt2 r2 = s := by
  intro env s p amt1 amt2 r1 r2 h
  have h2 : on_account_created_and_claimed env s amt2 r2
      = Except.error "Callback can only be called from the contract" := by
    unfold on_account_created_and_claimed
    rw [if_neg h]
  refine ⟨?_, h2, ?_⟩
  · unfold on_account_created
    rw [if_neg h]
  · unfold on_account_created_and_claimedState
    rw [h2]

/-- C8 witness: an external account calling both callbacks. -/
theorem callbacks_require_self_predecessor_witness :
    on_account_created ⟨"alice", "linkdrop", [0], 0⟩ LinkDrop.default
        "bob" 5 true
      = Except.error "Callback can only be called from the contract" ∧
    on_account_created_and_claimed ⟨"alice", "linkdrop", [0], 0⟩
        LinkDrop.default 7 false
      = Except.error "Callback can only be called from the contract" ∧
    on_account_created_and_claimedState ⟨"alice", "linkdrop", [0], 0⟩
        LinkDrop.default 7 false = LinkDrop.default :=
  callbacks_require_self_predecessor ⟨"alice", "linkdrop", [0], 0⟩
    LinkDrop.default "bob" 5 7 true false (by decide)

/-- C6: the Random Allocator is a pure function of `(remaining, entropy)`;
for any `remaining = R` below the `u128` bound its payout lies in
`[R / 255, 253 * (R / 255)]`, and equal inputs give equal payouts. -/
theorem allocate_bounds_deterministic :
    ∀ (remaining : Nat) (entropy : List Nat), remaining < 2 ^ 128 →
      remaining / 255 ≤ allocate remaining entropy ∧
      allocate remaining entropy ≤ 253 * (remaining / 255) ∧
      ∀ entropy2, entropy2 = entropy →
        allocate remaining entropy2 = allocate remaining entropy := by
  intro R e hR
  set idx := max 1 (min 253 (e.foldl (fun acc b => (acc + b) % 256) 0))
    with hidef
  have hidx1 : 1 ≤ idx := le_max_left _ _
  have hidx2 : idx ≤ 253 := max_le (by norm_num) (min_le_left _ _)
  have hmul : R / 255 * 255 ≤ R := Nat.div_mul_le_self R 255
  have hlt : R / 255 * idx < 2 ^ 128 := by
    have h1 : R / 255 * idx ≤ R / 255 * 255 :=
      Nat.mul_le_mul_left _ (by omega)
    omega
  have he : allocate R e = R / 255 * idx := by
    show R / 255 * idx % 2 ^ 128 = R / 255 * idx
    exact Nat.mod_eq_of_lt hlt
  refine ⟨?_, ?_, ?_⟩
  · rw [he]
    calc R / 255 = R / 255 * 1 := (Nat.mul_one _).symm
      _ ≤ R / 255 * idx := Nat.mul_le_mul_left _ hidx1
  · rw [he]
    calc R / 255 * idx ≤ R / 255 * 253 := Nat.mul_le_mul_left _ hidx2
      _ = 253 * (R / 255) := Nat.mul_comm _ _
  · intro e2 hee
    rw [hee]

/-- C6 witness: `allocate 1000 [3, 7] = 30`, inside `[3, 759]`. -/
theorem allocate_bounds_deterministic_witness :
    1000 / 255 ≤ allocate 1000 [3, 7] ∧
    allocate 1000 [3, 7] ≤ 253 * (1000 / 255) ∧
    allocate 1000 [3, 7] = allocate 1000 [3, 7] :=
  ⟨(allocate_bounds_deterministic 1000 [3, 7] (by norm_num)).1,
   (allocate_bounds_deterministic 1000 [3, 7] (by norm_num)).2.1,
   (allocate_bounds_deterministic 1000 [3, 7] (by norm_num)).2.2 [3, 7] rfl⟩

lemma create_account_inv (env : Env) (s : LinkDrop) (a : AccountId)
    (pk : PublicKey) (s1 : LinkDrop) (acts : List HostAction)
    (h : create_account env s a pk = Except.ok (s1, acts)) :
    s1 = s ∧ acts = [HostAction.createAccount a,
      HostAction.addFullAccessKey a pk,
      HostAction.transfer a env.attached_deposit,
      HostAction.callOnAccountCreated env.predecessor_account_id
        env.attached_deposit] := by
  unfold create_account at h
  split at h
  · injection h with h'
    injection h' with h1 h2
    exact ⟨h1.symm, h2.symm⟩
  · exact Except.noConfusion h

lemma on_account_created_run (env : Env) (s : LinkDrop) (p : AccountId)
    (amt : Nat) (h : env.predecessor_account_id = env.current_account_id) :
    on_account_created env s p amt false
      = Except.ok (s, [HostAction.transfer p amt], false) ∧
    on_account_created env s p amt true = Except.ok (s, [], true) := by
  constructor
  · unfold on_account_created
    rw [if_pos h]
    rfl
  · unfold on_account_created
    rw [if_pos h]
    rfl

/-- C7: a successful dispatch of `create_account` leaves the contract state
untouched and schedules `on_account_created` with the predecessor and the
attached amount recorded at call time; the callback refunds exactly that
amount to that predecessor when the external operation failed, and refunds
nothing on success. -/
theorem create_account_failure_refunds_payer :
    ∀ (env : Env) (s : LinkDrop) (a : AccountId) (pk : PublicKey)
      (s1 : LinkDrop) (acts : List HostAction),
      create_account env s a pk = Except.ok (s1, acts) →
      s1 = s ∧
      HostAction.callOnAccountCreated env.predecessor_account_id
          env.attached_deposit ∈ acts ∧
      ∀ (env2 : Env), env2.predecessor_account_id = env2.current_account_id →
        on_account_created env2 s1 env.predecessor_account_id
            env.attached_deposit false
          = Except.ok (s1, [HostAction.transfer env.predecessor_account_id
              env.attached_deposit], false) ∧
        on_account_created env2 s1 env.predecessor_account_id
            env.attached_deposit true = Except.ok (s1, [], true) := by
  intro env s a pk s1 acts h
  obtain ⟨hs, hacts⟩ := create_account_inv env s a pk s1 acts h
  refine ⟨hs, ?_, ?_⟩
  · rw [hacts]
    simp only [List.mem_cons, List.not_mem_nil, or_false]
    tauto
  · intro env2 h2
    exact on_account_created_run env2 s1 env.predecessor_account_id
      env.attached_deposit h2

/-- C7 witness: concrete `create_account` call and both callback
outcomes. -/
theorem create_account_failure_refunds_payer_witness :
    LinkDrop.default = LinkDrop.default ∧
    HostAction.callOnAccountCreated "alice" 1000000
        ∈ [HostAction.createAccount "bob",
           HostAction.addFullAccessKey "bob" [4],
           HostAction.transfer "bob" 1000000,
           HostAction.callOnAccountCreated "alice" 1000000] ∧
    ∀ (env2 : Env), env2.predecessor_account_id = env2.current_account_id →
      on_account_created env2 LinkDrop.default "alice" 1000000 false
        = Except.ok (LinkDrop.default,
            [HostAction.transfer "alice" 1000000], false) ∧
      on_account_created env2 LinkDrop.default "alice" 1000000 true
        = Except.ok (LinkDrop.default, [], true) :=
  create_account_failure_refunds_payer ⟨"alice", "linkdrop", [0], 1000000⟩
    LinkDrop.default "bob" [4] LinkDrop.default
    [HostAction.createAccount "bob", HostAction.addFullAccessKey "bob" [4],
     HostAction.transfer "bob" 1000000,
     HostAction.callOnAccountCreated "alice" 1000000] rfl

lemma create_account_and_claim_inv (env : Env) (s : LinkDrop)
    (a : AccountId) (pk : PublicKey) (s1 : LinkDrop)
    (acts : List HostAction)
    (h : create_account_and_claim env s a pk = Except.ok (s1, acts)) :
    ∃ v, mapGet s.accounts env.signer_account_pk = some v ∧
      s1 = { s with
        accounts := mapRemove s.accounts env.signer_account_pk } ∧
      acts = [HostAction.createAccount a, HostAction.addFullAccessKey a pk,
        HostAction.transfer a v,
        HostAction.callOnAccountCreatedAndClaimed v] := by
  unfold create_account_and_claim at h
  split at h
  · split at h
    · split at h
      · rename_i v heq
        injection h with h'
        injection h' with h1 h2
        exact ⟨v, heq, h1.symm, h2.symm⟩
      · exact Except.noConfusion h
    · exact Except.noConfusion h
  · exact Except.noConfusion h

lemma on_account_created_and_claimed_false (env : Env) (s : LinkDrop)
    (amt : Nat) (h : env.predecessor_account_id = env.current_account_id) :
    on_account_created_and_claimed env s amt false
      = Except.ok ({ s with
          accounts := mapInsert s.accounts env.signer_account_pk amt },
          [], false) := by
  unfold on_account_created_and_claimed
  rw [if_pos h]
  rfl

/-- C1: if `create_account_and_claim` succeeds on a credential holding `v`
(debiting it) and the host later reports failure to
`on_account_created_and_claimed` with the scheduled amount, the escrow
balance stored under that credential is again exactly `v`. -/
theorem failed_create_and_claim_restores_escrow :
    ∀ (env1 : Env) (s : LinkDrop) (v : Nat),
      mapGet s.accounts env1.signer_account_pk = some v →
      ∀ (a : AccountId) (pk : PublicKey) (s1 : LinkDrop)
        (acts : List HostAction),
        create_account_and_claim env1 s a pk = Except.ok (s1, acts) →
        ∀ (amt : Nat),
          HostAction.callOnAccountCreatedAndClaimed amt ∈ acts →
        ∀ (env2 : Env),
          env2.signer_account_pk = env1.signer_account_pk →
          env2.predecessor_account_id = env2.current_account_id →
          mapGet (on_account_created_and_claimedState env2 s1 amt
              false).accounts env1.signer_account_pk = some v := by
  intro env1 s v hbal a pk s1 acts hcall amt hmem env2 hsig hpred
  obtain ⟨v0, hget0, hs1, hacts⟩ :=
    create_account_and_claim_inv env1 s a pk s1 acts hcall
  rw [hbal] at hget0
  injection hget0 with hv0
  subst hacts
  simp only [List.mem_cons, List.not_mem_nil, or_false] at hmem
  rcases hmem with h | h | h | h
  · exact HostAction.noConfusion h
  · exact HostAction.noConfusion h
  · exact HostAction.noConfusion h
  · injection h with hamt
    unfold on_account_created_and_claimedState
    rw [on_account_created_and_claimed_false env2 s1 amt hpred]
    show mapGet (mapInsert s1.accounts env2.signer_account_pk amt)
        env1.signer_account_pk = some v
    rw [hsig, mapGet_mapInsert_self, hamt, ← hv0]

/-- C1 witness: credential `[1]` holding 5, concrete failed round trip. -/
theorem failed_create_and_claim_restores_escrow_witness :
    mapGet (on_account_created_and_claimedState
        ⟨"linkdrop", "linkdrop", [1], 0⟩
        ⟨[], [], [], []⟩ 5 false).accounts [1] = some 5 :=
  failed_create_and_claim_restores_escrow
    ⟨"linkdrop", "linkdrop", [1], 0⟩ ⟨[([1], 5)], [], [], []⟩ 5 rfl
    "bob" [2] ⟨[], [], [], []⟩
    [HostAction.createAccount "bob", HostAction.addFullAccessKey "bob" [2],
     HostAction.transfer "bob" 5,
     HostAction.callOnAccountCreatedAndClaimed 5] (by rfl) 5
    (by simp) ⟨"linkdrop", "linkdrop", [1], 0⟩ rfl rfl

/-- C4: when the signing key has no escrow entry, both `claim` and
`create_account_and_claim` abort (with the unknown-credential panic when
the caller and destination guards pass) and the rolled-back state is
exactly the prior state. -/
theorem unknown_credential_claims_fail :
    ∀ (env : Env) (s : LinkDrop) (a : AccountId) (pk : PublicKey),
      mapGet s.accounts env.signer_account_pk = none →
      (∃ msg, claim env s a = Except.error msg) ∧
      claimState env s a = s ∧
      (∃ msg, create_account_and_claim env s a pk = Except.error msg) ∧
      create_account_and_claimState env s a pk = s ∧
      (env.predecessor_account_id = env.current_account_id →
        is_valid_account_id a = true →
        claim env s a = Except.error "Unexpected public key" ∧
        create_account_and_claim env s a pk
          = Except.error "Unexpected public key") := by
  intro env s a pk habs
  have hc : ∃ msg, claim env s a = Except.error msg := by
    unfold claim
    by_cases h1 : env.predecessor_account_id = env.current_account_id
    · rw [if_pos h1]
      by_cases h2 : is_valid_account_id a = true
      · rw [if_pos h2, habs]
        exact ⟨_, rfl⟩
      · rw [if_neg h2]
        exact ⟨_, rfl⟩
    · rw [if_neg h1]
      exact ⟨_, rfl⟩
  have hcc : ∃ msg, create_account_and_claim env s a pk
      = Except.error msg := by
    unfold create_account_and_claim
    by_cases h1 : env.predecessor_account_id = env.current_account_id
    · rw [if_pos h1]
      by_cases h2 : is_valid_account_id a = true
      · rw [if_pos h2, habs]
        exact ⟨_, rfl⟩
      · rw [if_neg h2]
        exact ⟨_, rfl⟩
    · rw [if_neg h1]
      exact ⟨_, rfl⟩
  obtain ⟨m1, hm1⟩ := hc
  obtain ⟨m2, hm2⟩ := hcc
  refine ⟨⟨m1, hm1⟩, ?_, ⟨m2, hm2⟩, ?_, ?_⟩
  · unfold claimState
    rw [hm1]
  · unfold create_account_and_claimState
    rw [hm2]
  · intro h1 h2
    constructor
    · unfold claim
      rw [if_pos h1, if_pos h2, habs]
    · unfold create_account_and_claim
      rw [if_pos h1, if_pos h2, habs]

/-- C4 witness: credential `[5]` has no entry in the empty state. -/
theorem unknown_credential_claims_fail_witness :
    (∃ msg, claim ⟨"linkdrop", "linkdrop", [5], 0⟩ LinkDrop.default "bob"
      = Except.error msg) ∧
    claimState ⟨"linkdrop", "linkdrop", [5], 0⟩ LinkDrop.default "bob"
      = LinkDrop.default ∧
    (∃ msg, create_account_and_claim ⟨"linkdrop", "linkdrop", [5], 0⟩
        LinkDrop.default "bob" [6] = Except.error msg) ∧
    create_account_and_claimState ⟨"linkdrop", "linkdrop", [5], 0⟩
        LinkDrop.default "bob" [6] = LinkDrop.default ∧
    ((⟨"linkdrop", "linkdrop", [5], 0⟩ : Env).predecessor_account_id
        = (⟨"linkdrop", "linkdrop", [5], 0⟩ : Env).current_account_id →
      is_valid_account_id "bob" = true →
      claim ⟨"linkdrop", "linkdrop", [5], 0⟩ LinkDrop.default "bob"
        = Except.error "Unexpected public key" ∧
      create_account_and_claim ⟨"linkdrop", "linkdrop", [5], 0⟩
          LinkDrop.default "bob" [6]
        = Except.error "Unexpected public key") :=
  unknown_credential_claims_fail ⟨"linkdrop", "linkdrop", [5], 0⟩
    LinkDrop.default "bob" [6] rfl

/-- C3 counterexample: with deposits above `count`, a second `send_redbag`
with the same credential does not fail with `AlreadyExists`: it succeeds
and replaces the stored envelope metadata (mode and count change from
`(1, 10)` to `(0, 5)`). -/
theorem send_redbag_second_call_succeeds :
    send_redbag (envSelf 100) LinkDrop.default [7] 10 1
      = Except.ok (⟨[], [([], ⟨1, 10⟩)], [([7], [[]])], []⟩,
          [HostAction.addAccessKey "linkdrop" [7] ACCESS_KEY_ALLOWANCE
            "linkdrop" ""]) ∧
    send_redbag (envSelf 100) ⟨[], [([], ⟨1, 10⟩)], [([7], [[]])], []⟩
        [7] 5 0
      = Except.ok (⟨[], [([], ⟨0, 5⟩)], [([7], [[], []])], []⟩,
          [HostAction.addAccessKey "linkdrop" [7] ACCESS_KEY_ALLOWANCE
            "linkdrop" ""]) ∧
    mapGet (⟨[], [([], ⟨0, 5⟩)], [([7], [[], []])], []⟩ :
        LinkDrop).red_info []
      ≠ mapGet (⟨[], [([], ⟨1, 10⟩)], [([7], [[]])], []⟩ :
        LinkDrop).red_info [] :=
  ⟨rfl, rfl, by decide⟩

/-- C3 as amended: a second `send_redbag` for a credential that already has
an envelope succeeds whenever the attached deposit exceeds `count`; it
overwrites the envelope metadata stored under the shared empty key and
appends that key again to the issuer's index. -/
theorem send_redbag_same_credential_overwrites :
    ∀ (env : Env) (s : LinkDrop) (pk : PublicKey) (ks : List RedInfoKey)
      (c m : Nat),
      mapGet s.sender_red_info pk = some ks →
      c < env.attached_deposit →
      ∃ s' acts, send_redbag env s pk c m = Except.ok (s', acts) ∧
        mapGet s'.red_info [] = some ⟨m, c⟩ ∧
        mapGet s'.sender_red_info pk = some (ks ++ [[]]) := by
  intro env s pk ks c m hks hdep
  refine ⟨{ s with
      red_info := mapInsert s.red_info [] ⟨m, c⟩,
      sender_red_info := mapInsert s.sender_red_info pk
        ((mapGet s.sender_red_info pk).getD [] ++ [[]]) },
    [HostAction.addAccessKey env.current_account_id pk
      ACCESS_KEY_ALLOWANCE env.current_account_id ""], ?_, ?_, ?_⟩
  · unfold send_redbag
    rw [if_pos hdep]
  · exact mapGet_mapInsert_self _ _ _
  · rw [mapGet_mapInsert_self, hks]
    rfl

/-- C3 amended-claim witness: concrete second call over an existing
envelope. -/
theorem send_redbag_same_credential_overwrites_witness :
    ∃ s' acts, send_redbag (envSelf 100)
        ⟨[], [([], ⟨1, 10⟩)], [([7], [[]])], []⟩ [7] 5 0
      = Except.ok (s', acts) ∧
      mapGet s'.red_info [] = some ⟨0, 5⟩ ∧
      mapGet s'.sender_red_info [7] = some ([[]] ++ [[]]) :=
  send_redbag_same_credential_overwrites (envSelf 100)
    ⟨[], [([], ⟨1, 10⟩)], [([7], [[]])], []⟩ [7] [[]] 5 0 rfl (by decide)

lemma send_red_info_eq (env : Env) (s : LinkDrop) (pk : PublicKey)
    (s' : LinkDrop) (acts : List HostAction)
    (h : send env s pk = Except.ok (s', acts)) :
    s'.red_info = s.red_info := by
  unfold send at h
  split at h
  · injection h with h'
    injection h' with h1 h2
    rw [← h1]
  · exact Except.noConfusion h

lemma claim_red_info_eq (env : Env) (s : LinkDrop) (a : AccountId)
    (s' : LinkDrop) (acts : List HostAction)
    (h : claim env s a = Except.ok (s', acts)) :
    s'.red_info = s.red_info := by
  unfold claim at h
  split at h
  · split at h
    · split at h
      · injection h with h'
        injection h' with h1 h2
        rw [← h1]
      · exact Except.noConfusion h
    · exact Except.noConfusion h
  · exact Except.noConfusion h

lemma on_account_created_state_eq (env : Env) (s : LinkDrop)
    (p : AccountId) (amt : Nat) (r : Bool) (s' : LinkDrop)
    (acts : List HostAction) (b : Bool)
    (h : on_account_created env s p amt r = Except.ok (s', acts, b)) :
    s' = s := by
  unfold on_account_created at h
  split at h
  · split at h
    · injection h with h'
      injection h' with h1 h2
      exact h1.symm
    · injection h with h'
      injection h' with h1 h2
      exact h1.symm
  · exact Except.noConfusion h

lemma on_account_created_and_claimed_red_info_eq (env : Env)
    (s : LinkDrop) (amt : Nat) (r : Bool) (s' : LinkDrop)
    (acts : List HostAction) (b : Bool)
    (h : on_account_created_and_claimed env s amt r
      = Except.ok (s', acts, b)) :
    s'.red_info = s.red_info := by
  unfold on_account_created_and_claimed at h
  split at h
  · split at h
    · injection h with h'
      injection h' with h1 h2
      rw [← h1]
    · injection h with h'
      injection h' with h1 h2
      rw [← h1]
  · exact Except.noConfusion h

lemma send_redbag_inv (env : Env) (s : LinkDrop) (pk : PublicKey)
    (c m : Nat) (s' : LinkDrop) (acts : List HostAction)
    (h : send_redbag env s pk c m = Except.ok (s', acts)) :
    s'.red_info = mapInsert s.red_info [] ⟨m, c⟩ ∧
    s'.sender_red_info = mapInsert s.sender_red_info pk
      ((mapGet s.sender_red_info pk).getD [] ++ [[]]) := by
  unfold send_redbag at h
  split at h
  · injection h with h'
    injection h' with h1 h2
    rw [← h1]
    exact ⟨rfl, rfl⟩
  · exact Except.noConfusion h

lemma step_red_info_single (s s' : LinkDrop) (hstep : Step s s')
    (hinv : s.red_info = [] ∨ ∃ ri, s.red_info = [([], ri)]) :
    s'.red_info = [] ∨ ∃ ri, s'.red_info = [([], ri)] := by
  cases hstep
  case send env pk acts h =>
    rw [send_red_info_eq env s pk s' acts h]
    exact hinv
  case claim env a acts h =>
    rw [claim_red_info_eq env s a s' acts h]
    exact hinv
  case create_account_and_claim env a pk acts h =>
    obtain ⟨v, _, hs1, _⟩ :=
      create_account_and_claim_inv env s a pk s' acts h
    rw [hs1]
    exact hinv
  case create_account env a pk acts h =>
    obtain ⟨hs1, _⟩ := create_account_inv env s a pk s' acts h
    rw [hs1]
    exact hinv
  case on_account_created env p amt r acts b h =>
    rw [on_account_created_state_eq env s p amt r s' acts b h]
    exact hinv
  case on_account_created_and_claimed env amt r acts b h =>
    rw [on_account_created_and_claimed_red_info_eq env s amt r s' acts b h]
    exact hinv
  case send_redbag env pk c m acts h =>
    obtain ⟨h1, _⟩ := send_redbag_inv env s pk c m s' acts h
    rcases hinv with h0 | ⟨ri, h0⟩
    · right
      refine ⟨⟨m, c⟩, ?_⟩
      rw [h1, h0]
      rfl
    · right
      refine ⟨⟨m, c⟩, ?_⟩
      rw [h1, h0]
      rfl

/-- C9: in every reachable state the envelope map holds at most one entry
and it is keyed by the empty byte vector; every successful `send_redbag`
stores its metadata under that same constant key (overwriting any previous
envelope) while appending the key once more to the issuer's index. -/
theorem red_info_single_empty_key :
    (∀ s, Reachable s →
      s.red_info = [] ∨ ∃ ri, s.red_info = [([], ri)]) ∧
    (∀ (env : Env) (s : LinkDrop) (pk : PublicKey) (c m : Nat)
       (s' : LinkDrop) (acts : List HostAction),
       send_redbag env s pk c m = Except.ok (s', acts) →
       mapGet s'.red_info [] = some ⟨m, c⟩ ∧
       mapGet s'.sender_red_info pk
         = some ((mapGet s.sender_red_info pk).getD [] ++ [[]])) := by
  constructor
  · intro s hs
    induction hs with
    | refl =>
        left
        rfl
    | tail hsteps hstep ih => exact step_red_info_single _ _ hstep ih
  · intro env s pk c m s' acts h
    obtain ⟨h1, h2⟩ := send_redbag_inv env s pk c m s' acts h
    constructor
    · rw [h1]
      exact mapGet_mapInsert_self _ _ _
    · rw [h2]
      exact mapGet_mapInsert_self _ _ _

/-- C9 witness: the deployed state, and one concrete `send_redbag`. -/
theorem red_info_single_empty_key_witness :
    (LinkDrop.default.red_info = [] ∨
      ∃ ri, LinkDrop.default.red_info = [([], ri)]) ∧
    (mapGet (⟨[], [([], ⟨1, 10⟩)], [([7], [[]])], []⟩ :
        LinkDrop).red_info [] = some ⟨1, 10⟩ ∧
     mapGet (⟨[], [([], ⟨1, 10⟩)], [([7], [[]])], []⟩ :
        LinkDrop).sender_red_info [7]
       = some ((mapGet LinkDrop.default.sender_red_info [7]).getD []
           ++ [[]])) :=
  ⟨red_info_single_empty_key.1 LinkDrop.default Relation.ReflTransGen.refl,
   red_info_single_empty_key.2 (envSelf 100) LinkDrop.default [7] 10 1
     ⟨[], [([], ⟨1, 10⟩)], [([7], [[]])], []⟩
     [HostAction.addAccessKey "linkdrop" [7] ACCESS_KEY_ALLOWANCE
       "linkdrop" ""] rfl⟩
